import Mathlib

/-!
Verification of the ACM-motherboard repository: a shallow embedding of the
quiz-page state components (management, design, research, tech, competitive
coding) and of the 3D-scene interaction layer (click-to-navigate timers,
drag rotation, per-frame damping), with theorems settling the spec claims.

Conventions: JavaScript numbers are modelled by ℚ where fractional values
occur and by ℕ for counters; `undefined`-able record fields become `Option`;
JS `Set`/`Record<number, boolean>` become `Nat → Bool`; `String.prototype.trim`
is modelled by `jsTrim` below.
-/

/-- Model of JavaScript `String.prototype.trim()`: drop whitespace characters
from both ends of the string. -/
def jsTrim (s : String) : String :=
  ⟨((s.data.dropWhile Char.isWhitespace).reverse.dropWhile Char.isWhitespace).reverse⟩

/-! ## Management page (src/pages/management.tsx) -/

namespace Management

/-- The management question list, reduced to the fields the logic reads:
`(id, points)` for each of the six questions. -/
def managementQuestions : List (Nat × Nat) :=
  [(1, 10), (2, 15), (3, 20), (4, 25), (5, 30), (6, 35)]

/-- Component state of `ManagementPage`: `answers` (id → text, absent when the
user never typed), `currentQuestion` index, `totalScore`. -/
structure State where
  answers : Nat → Option String
  currentQuestion : Nat
  totalScore : Nat

/-- Initial state on mount: `useState({})`, `useState(0)`, `useState(0)`. -/
def initState : State :=
  { answers := fun _ => none, currentQuestion := 0, totalScore := 0 }

/-- Model of `handleAnswerChange`: store the textarea text for one question. -/
def handleAnswerChange (questionId : Nat) (answer : String) (s : State) : State :=
  { s with answers := fun n => if n = questionId then some answer else s.answers n }

/-- Model of `submitAnswer`: if the stored answer is truthy and its trimmed length
exceeds 10, add the question's points to the total score.  There is no
submitted-set on this page and the answer itself is left in place. -/
def submitAnswer (questionId : Nat) (s : State) : State :=
  match s.answers questionId with
  | none => s
  | some answer =>
    if answer ≠ "" ∧ (jsTrim answer).length > 10 then
      match managementQuestions.find? (fun q => q.1 == questionId) with
      | some q => { s with totalScore := s.totalScore + q.2 }
      | none => s
    else s

/-- The PROCESS button's `disabled` attribute:
`!answers[id]?.trim()` — disabled exactly when the trimmed answer is blank. -/
def submitDisabled (questionId : Nat) (s : State) : Bool :=
  match s.answers questionId with
  | none => true
  | some a => jsTrim a == ""

end Management

/-! ## Design page (src/pages/design.tsx) -/

namespace Design

/-- The five design question ids. -/
def designQuestionIds : List Nat := [1, 2, 3, 4, 5]

/-- Component state of `DesignPage`: answers, submitted set, progress meter. -/
structure State where
  answers : Nat → Option String
  submittedQuestions : Nat → Bool
  designProgress : Nat

/-- Initial state on mount. -/
def initState : State :=
  { answers := fun _ => none, submittedQuestions := fun _ => false,
    designProgress := 0 }

/-- Model of `handleAnswerChange`. -/
def handleAnswerChange (questionId : Nat) (value : String) (s : State) : State :=
  { s with answers := fun n => if n = questionId then some value else s.answers n }

/-- Model of `handleSubmitAnswer`: when the trimmed answer is non-blank, insert the id
into the submitted set and bump the progress meter (capped at 100). -/
def handleSubmitAnswer (questionId : Nat) (s : State) : State :=
  match s.answers questionId with
  | none => s
  | some a =>
    if jsTrim a ≠ "" then
      { s with
        submittedQuestions := fun n => if n = questionId then true else s.submittedQuestions n,
        designProgress := min 100 (s.designProgress + 20) }
    else s

/-- The answer textarea's `disabled` attribute: `submittedQuestions.has(id)`. -/
def textareaDisabled (questionId : Nat) (s : State) : Bool :=
  s.submittedQuestions questionId

/-- The submit button's `disabled` attribute:
`!answers[id]?.trim() || submittedQuestions.has(id)`. -/
def submitDisabled (questionId : Nat) (s : State) : Bool :=
  (match s.answers questionId with
   | none => true
   | some a => jsTrim a == "") || s.submittedQuestions questionId

/-- Typing through the UI: the change event cannot fire while the textarea is
disabled. -/
def uiAnswerChange (questionId : Nat) (value : String) (s : State) : State :=
  if textareaDisabled questionId s then s else handleAnswerChange questionId value s

/-- Clicking submit through the UI: no click while the button is disabled. -/
def uiSubmit (questionId : Nat) (s : State) : State :=
  if submitDisabled questionId s then s else handleSubmitAnswer questionId s

/-- The operations the page's UI exposes on its state. -/
inductive Op where
  | change (questionId : Nat) (value : String)
  | submit (questionId : Nat)

/-- Apply one UI operation. -/
def applyOp (op : Op) (s : State) : State :=
  match op with
  | .change q v => uiAnswerChange q v s
  | .submit q => uiSubmit q s

/-- Apply a sequence of UI operations, oldest first. -/
def applyOps (ops : List Op) (s : State) : State :=
  ops.foldl (fun t op => applyOp op t) s

end Design

/-! ## Research page (src/unnamed/part_001, ResearchPage) -/

namespace Research

/-- Component state of `ResearchPage`: answers and submitted set. -/
structure State where
  answers : Nat → Option String
  submittedQuestions : Nat → Bool

/-- Initial state on mount. -/
def initState : State :=
  { answers := fun _ => none, submittedQuestions := fun _ => false }

/-- Model of `handleAnswerChange`. -/
def handleAnswerChange (questionId : Nat) (value : String) (s : State) : State :=
  { s with answers := fun n => if n = questionId then some value else s.answers n }

/-- Model of `handleSubmitAnswer`: insert into the submitted set when the trimmed
answer is non-blank. -/
def handleSubmitAnswer (questionId : Nat) (s : State) : State :=
  match s.answers questionId with
  | none => s
  | some a =>
    if jsTrim a ≠ "" then
      { s with submittedQuestions := fun n =>
          if n = questionId then true else s.submittedQuestions n }
    else s

/-- Textarea `disabled`: `submittedQuestions.has(id)`. -/
def textareaDisabled (questionId : Nat) (s : State) : Bool :=
  s.submittedQuestions questionId

/-- Submit button `disabled`: `!answers[id]?.trim() || submittedQuestions.has(id)`. -/
def submitDisabled (questionId : Nat) (s : State) : Bool :=
  (match s.answers questionId with
   | none => true
   | some a => jsTrim a == "") || s.submittedQuestions questionId

/-- Typing through the UI (textarea disabled once submitted). -/
def uiAnswerChange (questionId : Nat) (value : String) (s : State) : State :=
  if textareaDisabled questionId s then s else handleAnswerChange questionId value s

/-- Submitting through the UI (button disabled when blank or submitted). -/
def uiSubmit (questionId : Nat) (s : State) : State :=
  if submitDisabled questionId s then s else handleSubmitAnswer questionId s

/-- The operations the page's UI exposes. -/
inductive Op where
  | change (questionId : Nat) (value : String)
  | submit (questionId : Nat)

/-- Apply one UI operation. -/
def applyOp (op : Op) (s : State) : State :=
  match op with
  | .change q v => uiAnswerChange q v s
  | .submit q => uiSubmit q s

/-- Apply a sequence of UI operations. -/
def applyOps (ops : List Op) (s : State) : State :=
  ops.foldl (fun t op => applyOp op t) s

end Research

/-! ## Tech page (src/unnamed/part_001, TechPage) -/

namespace Tech

/-- Component state of `TechPage`: answers, submitted set, fan speed. -/
structure State where
  answers : Nat → Option String
  submittedQuestions : Nat → Bool
  fanSpeed : Nat

/-- Initial state on mount (`useState(60)` for the fan). -/
def initState : State :=
  { answers := fun _ => none, submittedQuestions := fun _ => false, fanSpeed := 60 }

/-- Model of `handleAnswerChange`. -/
def handleAnswerChange (questionId : Nat) (value : String) (s : State) : State :=
  { s with answers := fun n => if n = questionId then some value else s.answers n }

/-- Model of `handleSubmitAnswer`: insert into the submitted set and raise the fan
speed by 8 (capped at 100) when the trimmed answer is non-blank. -/
def handleSubmitAnswer (questionId : Nat) (s : State) : State :=
  match s.answers questionId with
  | none => s
  | some a =>
    if jsTrim a ≠ "" then
      { s with
        submittedQuestions := fun n => if n = questionId then true else s.submittedQuestions n,
        fanSpeed := min 100 (s.fanSpeed + 8) }
    else s

/-- Textarea `disabled`: `submittedQuestions.has(id)`. -/
def textareaDisabled (questionId : Nat) (s : State) : Bool :=
  s.submittedQuestions questionId

/-- Submit button `disabled`: `!answers[id]?.trim() || submittedQuestions.has(id)`. -/
def submitDisabled (questionId : Nat) (s : State) : Bool :=
  (match s.answers questionId with
   | none => true
   | some a => jsTrim a == "") || s.submittedQuestions questionId

/-- Typing through the UI. -/
def uiAnswerChange (questionId : Nat) (value : String) (s : State) : State :=
  if textareaDisabled questionId s then s else handleAnswerChange questionId value s

/-- Submitting through the UI. -/
def uiSubmit (questionId : Nat) (s : State) : State :=
  if submitDisabled questionId s then s else handleSubmitAnswer questionId s

/-- The operations the page's UI exposes. -/
inductive Op where
  | change (questionId : Nat) (value : String)
  | submit (questionId : Nat)

/-- Apply one UI operation. -/
def applyOp (op : Op) (s : State) : State :=
  match op with
  | .change q v => uiAnswerChange q v s
  | .submit q => uiSubmit q s

/-- Apply a sequence of UI operations. -/
def applyOps (ops : List Op) (s : State) : State :=
  ops.foldl (fun t op => applyOp op t) s

end Tech

/-! ## RAM competitive-coding page (src/App.tsx, CompetitiveCodingPage) -/

namespace CompetitiveCoding

/-- The question list reduced to `(id, points)`. -/
def ccQuestions : List (Nat × Nat) :=
  [(1, 100), (2, 200), (3, 300), (4, 250), (5, 350)]

/-- The `Answer` record: code text and explanation text. -/
structure Answer where
  code : String
  explanation : String
deriving DecidableEq

/-- Which textarea an `updateAnswer` call targets. -/
inductive Field where
  | code
  | explanation

/-- Component state of `CompetitiveCodingPage`. -/
structure State where
  answers : Nat → Option Answer
  activeQuestion : Nat
  totalScore : Nat
  submissions : Nat → Bool

/-- Initial state on mount (`activeQuestion` starts at 1). -/
def initState : State :=
  { answers := fun _ => none, activeQuestion := 1, totalScore := 0,
    submissions := fun _ => false }

/-- Model of `updateAnswer`: write one field of the answer record, defaulting the
other field to the stored value or `''`. -/
def updateAnswer (questionId : Nat) (field : Field) (value : String) (s : State) : State :=
  let old := s.answers questionId
  let newAnswer : Answer :=
    match field with
    | .code => { code := value,
                 explanation := (old.map Answer.explanation).getD "" }
    | .explanation => { code := (old.map Answer.code).getD "",
                        explanation := value }
  { s with answers := fun n => if n = questionId then some newAnswer else s.answers n }

/-- Model of `submitAnswer`: when both stored fields are non-blank, record the
submission and, if the id names a listed question, add its points. -/
def submitAnswer (questionId : Nat) (s : State) : State :=
  match s.answers questionId with
  | none => s
  | some answer =>
    if jsTrim answer.code ≠ "" ∧ jsTrim answer.explanation ≠ "" then
      let s1 := { s with submissions := fun n =>
          if n = questionId then true else s.submissions n }
      match ccQuestions.find? (fun q => q.1 == questionId) with
      | some q => { s1 with totalScore := s1.totalScore + q.2 }
      | none => s1
    else s

/-- Model of `setActiveQuestion` (question-navigation buttons). -/
def setActiveQuestion (questionId : Nat) (s : State) : State :=
  { s with activeQuestion := questionId }

/-- The submit button's `disabled` attribute: `submissions[id]`. -/
def submitDisabled (questionId : Nat) (s : State) : Bool :=
  s.submissions questionId

/-- Clicking submit through the UI: no click once the button is disabled. -/
def uiSubmit (questionId : Nat) (s : State) : State :=
  if submitDisabled questionId s then s else submitAnswer questionId s

/-- The operations the page's UI exposes. -/
inductive Op where
  | update (questionId : Nat) (field : Field) (value : String)
  | submit (questionId : Nat)
  | select (questionId : Nat)

/-- Apply one UI operation. -/
def applyOp (op : Op) (s : State) : State :=
  match op with
  | .update q f v => updateAnswer q f v s
  | .submit q => uiSubmit q s
  | .select q => setActiveQuestion q s

/-- Apply a sequence of UI operations, oldest first. -/
def applyOps (ops : List Op) (s : State) : State :=
  ops.foldl (fun t op => applyOp op t) s

/-- The points earned according to the submissions record: the sum of the
point values of the listed questions that are marked submitted. -/
def earnedPoints (submissions : Nat → Bool) : Nat :=
  (ccQuestions.map (fun q => if submissions q.1 then q.2 else 0)).sum

/-- The page's score invariant: the score equals the points of the marked
questions. -/
def ScoreInv (s : State) : Prop :=
  s.totalScore = earnedPoints s.submissions

end CompetitiveCoding

/-! ## 3D scene interaction layer (src/unnamed/part_000 and src/App.tsx) -/

namespace Motherboard

/-- JavaScript `s.replace(' ', '-')` on the character list: only the first
space is replaced. -/
def replaceFirstSpace : List Char → List Char
  | [] => []
  | c :: cs => if c = ' ' then '-' :: cs else c :: replaceFirstSpace cs

/-- Model of `domain.replace(' ', '-')`. -/
def jsReplaceSpaceDash (s : String) : String :=
  ⟨replaceFirstSpace s.data⟩

/-- The route built in `handleDomainClick`: `` `/${domain.replace(' ', '-')}` ``. -/
def routeFor (domain : String) : String :=
  "/" ++ jsReplaceSpaceDash domain

/-- The route surface declared in `App.tsx`. -/
def routeSurface : List String :=
  ["/", "/management", "/competitive-coding", "/tech", "/design", "/research"]

/-- The navigation delay in milliseconds: `isMobile ? 2000 : 2500`. -/
def navDuration (isMobile : Bool) : Nat :=
  if isMobile then 2000 else 2500

/-- The five clickable regions assembled in `MotherboardLayoutAccurate`. -/
inductive Region where
  | design
  | tech
  | management
  | competitiveCoding
  | research
deriving DecidableEq

/-- The list of clickable regions, in order of appearance in the layout. -/
def clickableRegions : List Region :=
  [.design, .tech, .management, .competitiveCoding, .research]

/-- The `domain` prop wired to each `ClickableComponent`. -/
def regionDomain : Region → String
  | .design => "design"
  | .tech => "tech"
  | .management => "management"
  | .competitiveCoding => "competitive coding"
  | .research => "research"

/-- The `position` prop wired to each `ClickableComponent` (exact decimal
literals of the source as rationals). -/
def regionPosition : Region → ℚ × ℚ × ℚ
  | .design => (-9/2, 0, -1)
  | .tech => (8/5, 7/25, -3/5)
  | .management => (18/5, 7/20, 1)
  | .competitiveCoding => (-3/2, 3/50, 1/2)
  | .research => (0, 3/50, 2)

/-- The per-region interaction state inside `ClickableComponent` (`hovered`,
which only drives the scale and the highlight sphere). -/
structure HoverState where
  hovered : Bool

/-- The payload `ClickableComponent` hands to `onDomainClick`: the wired
`domain` and `position` constants, whatever the interaction state. -/
def clickPayload (r : Region) (_st : HoverState) : String × (ℚ × ℚ × ℚ) :=
  (regionDomain r, regionPosition r)

/-! ### Rotation state and handlers (`RotatableMotherboard`) -/

/-- Model of `degToRad`: multiplication by the radians-per-degree constant.  The model
takes the constant `d2r` (π/180 in the source) as a parameter, since it is
irrational. -/
def degToRad (d2r deg : ℚ) : ℚ :=
  deg * d2r

/-- The constant `maxRotation = THREE.MathUtils.degToRad(20)`. -/
def maxRotation (d2r : ℚ) : ℚ :=
  degToRad d2r 20

/-- Model of `THREE.MathUtils.clamp(value, min, max) = Math.max(min, Math.min(max, value))`. -/
def clamp (value lo hi : ℚ) : ℚ :=
  max lo (min value hi)

/-- The constant `springStrength = 0.1` in the frame callback. -/
def springStrength : ℚ := 1/10

/-- The constant `damping = 0.9` in the frame callback. -/
def damping : ℚ := 9/10

/-- The rotation-related component state of `RotatableMotherboard`. -/
structure RotState where
  isDragging : Bool
  dragStart : ℚ × ℚ
  rotation : ℚ × ℚ
  targetRotation : ℚ × ℚ

/-- One `useFrame` tick of the rotation logic: when not dragging, damp the
target rotation and move the displayed rotation a fixed fraction toward the
(pre-damping) target — both `set*` calls read this render's values. -/
def frameStep (s : RotState) : RotState :=
  if s.isDragging then s
  else
    { s with
      targetRotation := (s.targetRotation.1 * damping, s.targetRotation.2 * damping),
      rotation := (s.rotation.1 + (s.targetRotation.1 - s.rotation.1) * springStrength,
                   s.rotation.2 + (s.targetRotation.2 - s.rotation.2) * springStrength) }

/-- The state after `n` frame ticks. -/
def framesFrom (s : RotState) : Nat → RotState
  | 0 => s
  | n + 1 => frameStep (framesFrom s n)

/-- Model of `handlePointerDown`: start a drag and record the normalised pointer
position. -/
def handlePointerDown (width height clientX clientY : ℚ) (s : RotState) : RotState :=
  { s with
    isDragging := true,
    dragStart := (clientX / width * 2 - 1, -(clientY / height) * 2 + 1) }

/-- Model of `handleMouseMove` (active only while dragging): normalise the pointer,
scale the displacement from `dragStart` by 2, clamp each axis to
`±maxRotation`, and write the result to both `rotation` and
`targetRotation`. -/
def handleMouseMove (d2r width height clientX clientY : ℚ) (s : RotState) : RotState :=
  if s.isDragging then
    let currentX := clientX / width * 2 - 1
    let currentY := -(clientY / height) * 2 + 1
    let deltaX := currentX - s.dragStart.1
    let deltaY := currentY - s.dragStart.2
    let newRotationY := clamp (deltaX * 2) (-(maxRotation d2r)) (maxRotation d2r)
    let newRotationX := clamp (deltaY * 2) (-(maxRotation d2r)) (maxRotation d2r)
    { s with
      rotation := (newRotationX, newRotationY),
      targetRotation := (newRotationX, newRotationY) }
  else s

/-- Model of `handleMouseUp`: stop dragging and reset the target rotation to zero. -/
def handleMouseUp (s : RotState) : RotState :=
  { s with isDragging := false, targetRotation := (0, 0) }

/-! ### Click-to-navigate timers -/

/-- A pending `setTimeout` navigation: its deadline and the route its
callback navigates to. -/
structure Timer where
  fire : Nat
  route : String
deriving DecidableEq

/-- The scene-level state affected by `handleDomainClick`: the viewport
class, the wall clock, the pending timers, the rotation state and the zoom
animation target. -/
structure SceneState where
  isMobile : Bool
  now : Nat
  timers : List Timer
  rot : RotState
  isZooming : Bool
  zoomTarget : Option (ℚ × ℚ × ℚ)

/-- Model of `handleDomainClick`: start the zoom, nudge the target rotation by a
mobile-scaled increment, and schedule a navigation timer for the domain's
route after `navDuration` — no existing timer is cancelled. -/
def handleDomainClick (d2r : ℚ) (domain : String) (position : ℚ × ℚ × ℚ)
    (st : SceneState) : SceneState :=
  let rotationMultiplier : ℚ := if st.isMobile then 6/10 else 1
  { st with
    isZooming := true,
    zoomTarget := some position,
    rot := { st.rot with
      targetRotation :=
        (st.rot.targetRotation.1 + degToRad d2r (8 * rotationMultiplier),
         st.rot.targetRotation.2 + degToRad d2r (3 * rotationMultiplier)) },
    timers := st.timers ++ [⟨st.now + navDuration st.isMobile, routeFor domain⟩] }

/-- A click event on a region: when it happens and which region. -/
structure Click where
  time : Nat
  region : Region

/-- Process one click: advance the wall clock to the click's moment and run
`handleDomainClick` with the region's wired payload. -/
def clickAt (d2r : ℚ) (c : Click) (st : SceneState) : SceneState :=
  handleDomainClick d2r (regionDomain c.region) (regionPosition c.region)
    { st with now := c.time }

/-- Process a sequence of clicks, oldest first. -/
def processClicks (d2r : ℚ) (clicks : List Click) (st : SceneState) : SceneState :=
  clicks.foldl (fun t c => clickAt d2r c t) st

/-- The timer whose `navigate` call takes effect last: among the pending
timers, the one with the greatest deadline, later-queued timers winning ties
(the event loop runs same-deadline callbacks in queue order). -/
def latestTimer (ts : List Timer) : Option Timer :=
  ts.foldl
    (fun best t =>
      match best with
      | none => some t
      | some b => if b.fire ≤ t.fire then some t else some b)
    none

end Motherboard

/-! ## Theorems settling the claims -/

/-- C2: On every quiz page, invoking the submit action for a question whose
answer text is empty/absent or whitespace-only leaves the page state —
submitted set, score, and hence every metric derived from them — exactly as
it was. -/
theorem C2_blank_submit_is_noop :
    (∀ (s : Management.State) (q : Nat),
        (∀ a, s.answers q = some a → jsTrim a = "") →
        Management.submitAnswer q s = s) ∧
    (∀ (s : Design.State) (q : Nat),
        (∀ a, s.answers q = some a → jsTrim a = "") →
        Design.handleSubmitAnswer q s = s) ∧
    (∀ (s : Research.State) (q : Nat),
        (∀ a, s.answers q = some a → jsTrim a = "") →
        Research.handleSubmitAnswer q s = s) ∧
    (∀ (s : Tech.State) (q : Nat),
        (∀ a, s.answers q = some a → jsTrim a = "") →
        Tech.handleSubmitAnswer q s = s) ∧
    (∀ (s : CompetitiveCoding.State) (q : Nat),
        (∀ a, s.answers q = some a →
          jsTrim a.code = "" ∨ jsTrim a.explanation = "") →
        CompetitiveCoding.submitAnswer q s = s) := by
  refine ⟨?_, ?_, ?_, ?_, ?_⟩
  · intro s q h
    cases hq : s.answers q with
    | none => simp [Management.submitAnswer, hq]
    | some a =>
      have ha : jsTrim a = "" := h a hq
      have hl : (jsTrim a).length = 0 := by rw [ha]; rfl
      simp only [Management.submitAnswer, hq]
      rw [if_neg]
      rintro ⟨-, hgt⟩
      omega
  · intro s q h
    cases hq : s.answers q with
    | none => simp [Design.handleSubmitAnswer, hq]
    | some a =>
      have ha : jsTrim a = "" := h a hq
      simp [Design.handleSubmitAnswer, hq, ha]
  · intro s q h
    cases hq : s.answers q with
    | none => simp [Research.handleSubmitAnswer, hq]
    | some a =>
      have ha : jsTrim a = "" := h a hq
      simp [Research.handleSubmitAnswer, hq, ha]
  · intro s q h
    cases hq : s.answers q with
    | none => simp [Tech.handleSubmitAnswer, hq]
    | some a =>
      have ha : jsTrim a = "" := h a hq
      simp [Tech.handleSubmitAnswer, hq, ha]
  · intro s q h
    cases hq : s.answers q with
    | none => simp [CompetitiveCoding.submitAnswer, hq]
    | some a =>
      have ha := h a hq
      simp only [CompetitiveCoding.submitAnswer, hq]
      rw [if_neg]
      rintro ⟨hc, he⟩
      rcases ha with ha | ha
      · exact hc ha
      · exact he ha

/-- C2 witness: a concrete whitespace-only answer on each page leaves the
state untouched. -/
theorem C2_blank_submit_is_noop_witness :
    Management.submitAnswer 1
        (Management.handleAnswerChange 1 "   " Management.initState)
      = Management.handleAnswerChange 1 "   " Management.initState ∧
    Design.handleSubmitAnswer 1
        (Design.handleAnswerChange 1 "   " Design.initState)
      = Design.handleAnswerChange 1 "   " Design.initState ∧
    Research.handleSubmitAnswer 1
        (Research.handleAnswerChange 1 "   " Research.initState)
      = Research.handleAnswerChange 1 "   " Research.initState ∧
    Tech.handleSubmitAnswer 1
        (Tech.handleAnswerChange 1 "   " Tech.initState)
      = Tech.handleAnswerChange 1 "   " Tech.initState ∧
    CompetitiveCoding.submitAnswer 1
        (CompetitiveCoding.updateAnswer 1 .code "   " CompetitiveCoding.initState)
      = CompetitiveCoding.updateAnswer 1 .code "   " CompetitiveCoding.initState := by
  refine ⟨?_, ?_, ?_, ?_, ?_⟩
  · refine C2_blank_submit_is_noop.1 _ 1 ?_
    intro a ha
    simp [Management.handleAnswerChange, Management.initState] at ha
    subst ha; decide
  · refine C2_blank_submit_is_noop.2.1 _ 1 ?_
    intro a ha
    simp [Design.handleAnswerChange, Design.initState] at ha
    subst ha; decide
  · refine C2_blank_submit_is_noop.2.2.1 _ 1 ?_
    intro a ha
    simp [Research.handleAnswerChange, Research.initState] at ha
    subst ha; decide
  · refine C2_blank_submit_is_noop.2.2.2.1 _ 1 ?_
    intro a ha
    simp [Tech.handleAnswerChange, Tech.initState] at ha
    subst ha; decide
  · refine C2_blank_submit_is_noop.2.2.2.2 _ 1 ?_
    intro a ha
    simp [CompetitiveCoding.updateAnswer, CompetitiveCoding.initState] at ha
    subst ha; left; decide

/-- C9: On the management page, PROCESS adds points only when the trimmed
answer is strictly longer than 10 characters; for trimmed lengths 1..10 the
button is enabled yet a click changes nothing. -/
theorem C9_short_answer_enabled_but_unscored :
    (∀ (s : Management.State) (q : Nat) (a : String),
        s.answers q = some a →
        1 ≤ (jsTrim a).length → (jsTrim a).length ≤ 10 →
        Management.submitDisabled q s = false ∧
        Management.submitAnswer q s = s) ∧
    (∀ (s : Management.State) (q : Nat),
        (Management.submitAnswer q s).totalScore ≠ s.totalScore →
        ∃ a, s.answers q = some a ∧ (jsTrim a).length > 10) := by
  constructor
  · intro s q a hq h1 h10
    constructor
    · simp only [Management.submitDisabled, hq]
      rw [beq_eq_false_iff_ne]
      intro he
      rw [he] at h1
      simp [String.length] at h1
    · simp only [Management.submitAnswer, hq]
      rw [if_neg]
      rintro ⟨-, hgt⟩
      omega
  · intro s q hne
    by_contra hno
    push_neg at hno
    apply hne
    cases hq : s.answers q with
    | none => simp [Management.submitAnswer, hq]
    | some a =>
      have := hno a hq
      simp only [Management.submitAnswer, hq]
      rw [if_neg]
      rintro ⟨-, hgt⟩
      omega

/-- C9 witness: the 5-character answer "short" on question 1 leaves the
button enabled and the score untouched. -/
theorem C9_short_answer_enabled_but_unscored_witness :
    (Management.handleAnswerChange 1 "short" Management.initState).answers 1
        = some "short" ∧
    1 ≤ (jsTrim "short").length ∧ (jsTrim "short").length ≤ 10 ∧
    Management.submitDisabled 1
        (Management.handleAnswerChange 1 "short" Management.initState) = false ∧
    Management.submitAnswer 1
        (Management.handleAnswerChange 1 "short" Management.initState)
      = Management.handleAnswerChange 1 "short" Management.initState := by
  have h := C9_short_answer_enabled_but_unscored.1
    (Management.handleAnswerChange 1 "short" Management.initState) 1 "short"
    (by decide) (by decide) (by decide)
  exact ⟨by decide, by decide, by decide, h.1, h.2⟩

/-- C3: the navigation delay is 2000 ms on mobile and 2500 ms otherwise
(strictly shorter on mobile); every click schedules exactly one timer for the
route obtained by hyphenating the domain; and each of the five clickable
domains maps to a route of the declared route surface. -/
theorem C3_delay_and_route_surface :
    Motherboard.navDuration true = 2000 ∧
    Motherboard.navDuration false = 2500 ∧
    Motherboard.navDuration true < Motherboard.navDuration false ∧
    (∀ (d2r : ℚ) (domain : String) (pos : ℚ × ℚ × ℚ)
        (st : Motherboard.SceneState),
        (Motherboard.handleDomainClick d2r domain pos st).timers
          = st.timers
            ++ [⟨st.now + Motherboard.navDuration st.isMobile,
                 Motherboard.routeFor domain⟩]) ∧
    (Motherboard.clickableRegions.map
        (fun r => Motherboard.routeFor (Motherboard.regionDomain r))).all
      (fun rt => Motherboard.routeSurface.contains rt) = true := by
  refine ⟨rfl, rfl, by decide, ?_, by decide⟩
  intro d2r domain pos st
  rfl

/-- C7: a click on a given region always hands the handler the same fixed
domain tag and anchor coordinates, independent of the interaction state —
the constants wired at scene-assembly time. -/
theorem C7_click_payload_deterministic :
    (∀ (r : Motherboard.Region) (s1 s2 : Motherboard.HoverState),
        Motherboard.clickPayload r s1 = Motherboard.clickPayload r s2) ∧
    (∀ (r : Motherboard.Region) (st : Motherboard.HoverState),
        Motherboard.clickPayload r st
          = (Motherboard.regionDomain r, Motherboard.regionPosition r)) ∧
    (∀ st : Motherboard.HoverState,
        Motherboard.clickPayload .design st = ("design", (-9/2, 0, -1)) ∧
        Motherboard.clickPayload .tech st = ("tech", (8/5, 7/25, -3/5)) ∧
        Motherboard.clickPayload .management st = ("management", (18/5, 7/20, 1)) ∧
        Motherboard.clickPayload .competitiveCoding st
          = ("competitive coding", (-3/2, 3/50, 1/2)) ∧
        Motherboard.clickPayload .research st = ("research", (0, 3/50, 2))) := by
  exact ⟨fun r s1 s2 => rfl, fun r st => rfl,
    fun st => ⟨rfl, rfl, rfl, rfl, rfl⟩⟩

/-- Clamping to a symmetric interval bounds the absolute value. -/
theorem abs_clamp_le {x m : ℚ} (hm : 0 ≤ m) : |Motherboard.clamp x (-m) m| ≤ m := by
  rw [abs_le]
  constructor
  · exact le_max_left _ _
  · exact max_le (by linarith) (min_le_right _ _)

/-- The clamp bound `maxRotation` is nonnegative for a nonnegative
conversion constant. -/
theorem maxRotation_nonneg {d2r : ℚ} (h : 0 ≤ d2r) :
    0 ≤ Motherboard.maxRotation d2r := by
  simp only [Motherboard.maxRotation, Motherboard.degToRad]
  linarith

/-- C5: while dragging, each rotation axis is the normalised pointer
displacement scaled by the fixed factor 2 and clamped to ±maxRotation (20
degrees), written identically to rotation and target rotation, and releasing
the pointer resets the target rotation to zero. -/
theorem C5_drag_clamped_snaps_back :
    (∀ (d2r width height clientX clientY : ℚ) (s : Motherboard.RotState),
        0 ≤ d2r → s.isDragging = true →
        (Motherboard.handleMouseMove d2r width height clientX clientY s).rotation
          = (Motherboard.clamp ((-(clientY / height) * 2 + 1 - s.dragStart.2) * 2)
               (-(Motherboard.maxRotation d2r)) (Motherboard.maxRotation d2r),
             Motherboard.clamp ((clientX / width * 2 - 1 - s.dragStart.1) * 2)
               (-(Motherboard.maxRotation d2r)) (Motherboard.maxRotation d2r)) ∧
        (Motherboard.handleMouseMove d2r width height clientX clientY s).targetRotation
          = (Motherboard.handleMouseMove d2r width height clientX clientY s).rotation ∧
        |(Motherboard.handleMouseMove d2r width height clientX clientY s).rotation.1|
          ≤ Motherboard.maxRotation d2r ∧
        |(Motherboard.handleMouseMove d2r width height clientX clientY s).rotation.2|
          ≤ Motherboard.maxRotation d2r) ∧
    (∀ s : Motherboard.RotState,
        (Motherboard.handleMouseUp s).targetRotation = (0, 0) ∧
        (Motherboard.handleMouseUp s).isDragging = false) := by
  constructor
  · intro d2r width height clientX clientY s hd2r hdrag
    have hm := maxRotation_nonneg hd2r
    simp only [Motherboard.handleMouseMove, hdrag, if_true]
    refine ⟨by trivial, by trivial, abs_clamp_le hm, abs_clamp_le hm⟩
  · intro s
    exact ⟨rfl, rfl⟩

/-- A concrete mid-drag state for the C5 witness. -/
def dragState : Motherboard.RotState :=
  { isDragging := true, dragStart := (0, 0), rotation := (0, 0),
    targetRotation := (0, 0) }

/-- C5 witness: a concrete drag (d2r = 1, viewport 2×2, pointer at (4,0))
lands on the clamped displacement, within ±maxRotation. -/
theorem C5_drag_clamped_snaps_back_witness :
    (0 : ℚ) ≤ 1 ∧ dragState.isDragging = true ∧
    ((Motherboard.handleMouseMove 1 2 2 4 0 dragState).rotation
        = (Motherboard.clamp ((-((0 : ℚ)/2) * 2 + 1 - dragState.dragStart.2) * 2)
            (-(Motherboard.maxRotation 1)) (Motherboard.maxRotation 1),
           Motherboard.clamp (((4 : ℚ)/2 * 2 - 1 - dragState.dragStart.1) * 2)
            (-(Motherboard.maxRotation 1)) (Motherboard.maxRotation 1)) ∧
      (Motherboard.handleMouseMove 1 2 2 4 0 dragState).targetRotation
        = (Motherboard.handleMouseMove 1 2 2 4 0 dragState).rotation ∧
      |(Motherboard.handleMouseMove 1 2 2 4 0 dragState).rotation.1|
        ≤ Motherboard.maxRotation 1 ∧
      |(Motherboard.handleMouseMove 1 2 2 4 0 dragState).rotation.2|
        ≤ Motherboard.maxRotation 1) ∧
    (Motherboard.handleMouseUp dragState).targetRotation = (0, 0) := by
  refine ⟨by norm_num, rfl, ?_, ?_⟩
  · exact C5_drag_clamped_snaps_back.1 1 2 2 4 0 dragState (by norm_num) rfl
  · exact (C5_drag_clamped_snaps_back.2 dragState).1

/-- One click appends exactly one timer and leaves the viewport class
alone. -/
theorem clickAt_timers (d2r : ℚ) (c : Motherboard.Click)
    (st : Motherboard.SceneState) :
    (Motherboard.clickAt d2r c st).timers
        = st.timers ++ [⟨c.time + Motherboard.navDuration st.isMobile,
            Motherboard.routeFor (Motherboard.regionDomain c.region)⟩] ∧
    (Motherboard.clickAt d2r c st).isMobile = st.isMobile :=
  ⟨rfl, rfl⟩

/-- Processing clicks appends one timer per click, in click order. -/
theorem processClicks_timers (d2r : ℚ) :
    ∀ (clicks : List Motherboard.Click) (st : Motherboard.SceneState),
    (Motherboard.processClicks d2r clicks st).timers
      = st.timers ++ clicks.map (fun c =>
          ⟨c.time + Motherboard.navDuration st.isMobile,
           Motherboard.routeFor (Motherboard.regionDomain c.region)⟩) := by
  intro clicks
  induction clicks with
  | nil => intro st; simp [Motherboard.processClicks]
  | cons c cs ih =>
    intro st
    have hstep : Motherboard.processClicks d2r (c :: cs) st
        = Motherboard.processClicks d2r cs (Motherboard.clickAt d2r c st) := rfl
    rw [hstep, ih (Motherboard.clickAt d2r c st),
      (clickAt_timers d2r c st).1, (clickAt_timers d2r c st).2]
    simp

/-- Folding the pick-the-latest step over timers with nondecreasing
deadlines returns the last timer. -/
theorem latestTimer_aux :
    ∀ (ts : List Motherboard.Timer) (b : Motherboard.Timer),
    List.Chain' (fun x y => x.fire ≤ y.fire) (b :: ts) →
    ts.foldl
        (fun best t =>
          match best with
          | none => some t
          | some bb => if bb.fire ≤ t.fire then some t else some bb)
        (some b)
      = (b :: ts).getLast? := by
  intro ts
  induction ts with
  | nil => intro b _; rfl
  | cons t ts ih =>
    intro b hchain
    rw [List.chain'_cons] at hchain
    have h1 : (List.foldl
        (fun best t =>
          match best with
          | none => some t
          | some bb => if bb.fire ≤ t.fire then some t else some bb)
        (some b) (t :: ts))
        = List.foldl
            (fun best t =>
              match best with
              | none => some t
              | some bb => if bb.fire ≤ t.fire then some t else some bb)
            (some t) ts := by
      simp only [List.foldl_cons, hchain.1, if_true]
    rw [h1, ih t hchain.2, List.getLast?_cons_cons]

/-- On a deadline-sorted timer list, the pick-the-latest fold returns the
last pending timer. -/
theorem latestTimer_sorted (ts : List Motherboard.Timer)
    (h : List.Chain' (fun x y => x.fire ≤ y.fire) ts) :
    Motherboard.latestTimer ts = ts.getLast? := by
  cases ts with
  | nil => rfl
  | cons b ts => exact latestTimer_aux ts b h

/-- Taking `getLast?` commutes with `map`. -/
theorem getLast?_map_eq {α β : Type} (f : α → β) :
    ∀ l : List α, (l.map f).getLast? = (l.getLast?).map f := by
  intro l
  induction l with
  | nil => rfl
  | cons a l ih =>
    cases l with
    | nil => rfl
    | cons b l =>
      simp only [List.map_cons, List.getLast?_cons_cons] at ih ⊢
      exact ih

/-- C6: every click appends its own pending navigation timer and cancels
nothing — n clicks leave n timers pending — and for nondecreasing click
times the timer that fires last (later-queued winning ties, as the event
loop runs same-deadline callbacks in queue order) is the last click's, so
the last click's navigation takes effect last. -/
theorem C6_uncancelled_timers_last_click_wins :
    (∀ (d2r : ℚ) (clicks : List Motherboard.Click)
        (st : Motherboard.SceneState),
        (Motherboard.processClicks d2r clicks st).timers
          = st.timers ++ clicks.map (fun c =>
              ⟨c.time + Motherboard.navDuration st.isMobile,
               Motherboard.routeFor (Motherboard.regionDomain c.region)⟩)) ∧
    (∀ (d2r : ℚ) (clicks : List Motherboard.Click)
        (st : Motherboard.SceneState),
        st.timers = [] →
        (Motherboard.processClicks d2r clicks st).timers.length = clicks.length) ∧
    (∀ (d2r : ℚ) (clicks : List Motherboard.Click)
        (st : Motherboard.SceneState) (c : Motherboard.Click),
        st.timers = [] →
        clicks.getLast? = some c →
        List.Chain' (fun a b => a.time ≤ b.time) clicks →
        Motherboard.latestTimer (Motherboard.processClicks d2r clicks st).timers
          = some ⟨c.time + Motherboard.navDuration st.isMobile,
              Motherboard.routeFor (Motherboard.regionDomain c.region)⟩) := by
  refine ⟨processClicks_timers, ?_, ?_⟩
  · intro d2r clicks st hnil
    rw [processClicks_timers d2r clicks st, hnil]
    simp
  · intro d2r clicks st c hnil hlast hchain
    rw [processClicks_timers d2r clicks st, hnil, List.nil_append]
    set f : Motherboard.Click → Motherboard.Timer := fun c =>
      ⟨c.time + Motherboard.navDuration st.isMobile,
       Motherboard.routeFor (Motherboard.regionDomain c.region)⟩ with hf
    have hchainf : List.Chain' (fun x y => x.fire ≤ y.fire) (clicks.map f) := by
      rw [List.chain'_map]
      refine hchain.imp ?_
      intro a b hab
      simpa [hf] using Nat.add_le_add_right hab (Motherboard.navDuration st.isMobile)
    rw [latestTimer_sorted _ hchainf, getLast?_map_eq f clicks, hlast]
    rfl

/-- The scene state the C6 witness starts from: desktop viewport, no
pending timers. -/
def sceneStart : Motherboard.SceneState :=
  { isMobile := false, now := 0, timers := [],
    rot := { isDragging := false, dragStart := (0, 0), rotation := (0, 0),
             targetRotation := (0, 0) },
    isZooming := false, zoomTarget := none }

/-- C6 witness: three rapid clicks (design at t=0, tech at t=1, research at
t=2, desktop viewport) leave three pending timers and the research timer,
firing at t=2502, takes effect last. -/
theorem C6_uncancelled_timers_last_click_wins_witness :
    (Motherboard.processClicks 1
        [⟨0, .design⟩, ⟨1, .tech⟩, ⟨2, .research⟩] sceneStart).timers.length
      = 3 ∧
    Motherboard.latestTimer
        (Motherboard.processClicks 1
          [⟨0, .design⟩, ⟨1, .tech⟩, ⟨2, .research⟩] sceneStart).timers
      = some ⟨2502, "/research"⟩ := by
  constructor
  · exact C6_uncancelled_timers_last_click_wins.2.1 1
      [⟨0, .design⟩, ⟨1, .tech⟩, ⟨2, .research⟩] sceneStart rfl
  · have hch : List.Chain' (fun a b : Motherboard.Click => a.time ≤ b.time)
        [⟨0, .design⟩, ⟨1, .tech⟩, ⟨2, .research⟩] :=
      List.Chain.cons (by decide) (List.Chain.cons (by decide) List.Chain.nil)
    have h := C6_uncancelled_timers_last_click_wins.2.2 1
      [⟨0, .design⟩, ⟨1, .tech⟩, ⟨2, .research⟩] sceneStart ⟨2, .research⟩
      rfl rfl hch
    simpa using h


/-- One design-page UI operation can neither unsubmit a submitted question
nor change its stored answer. -/
theorem designStep_preserves (op : Design.Op) (s : Design.State) (q : Nat)
    (h : s.submittedQuestions q = true) :
    (Design.applyOp op s).submittedQuestions q = true ∧
    (Design.applyOp op s).answers q = s.answers q := by
  cases op with
  | change q2 v =>
    simp only [Design.applyOp, Design.uiAnswerChange, Design.textareaDisabled]
    by_cases hd : s.submittedQuestions q2 = true
    · simp [hd, h]
    · have hq2 : ¬(q = q2) := fun he => hd (he ▸ h)
      simp only [Bool.not_eq_true] at hd
      simp [hd, Design.handleAnswerChange, h, hq2]
  | submit q2 =>
    simp only [Design.applyOp, Design.uiSubmit]
    by_cases hd : Design.submitDisabled q2 s = true
    · simp [hd, h]
    · simp only [Bool.not_eq_true] at hd
      simp only [hd, Bool.false_eq_true, if_false]
      cases hq2 : s.answers q2 with
      | none => simp [Design.handleSubmitAnswer, hq2, h]
      | some a =>
        by_cases ht : jsTrim a = ""
        · simp [Design.handleSubmitAnswer, hq2, ht, h]
        · refine ⟨?_, ?_⟩
          · simp only [Design.handleSubmitAnswer, hq2]
            rw [if_pos ht]
            by_cases hq : q = q2 <;> simp [hq, h]
          · simp only [Design.handleSubmitAnswer, hq2]
            rw [if_pos ht]

/-- Design page: a submitted question stays submitted with an unchanged
answer under any sequence of UI operations. -/
theorem designOps_preserve :
    ∀ (ops : List Design.Op) (s : Design.State) (q : Nat),
    s.submittedQuestions q = true →
    (Design.applyOps ops s).submittedQuestions q = true ∧
    (Design.applyOps ops s).answers q = s.answers q := by
  intro ops
  induction ops with
  | nil => intro s q h; exact ⟨h, rfl⟩
  | cons op ops ih =>
    intro s q h
    have hstep := designStep_preserves op s q h
    have hrest := ih (Design.applyOp op s) q hstep.1
    exact ⟨hrest.1, hrest.2.trans hstep.2⟩

/-- One research-page UI operation can neither unsubmit a submitted question
nor change its stored answer. -/
theorem researchStep_preserves (op : Research.Op) (s : Research.State) (q : Nat)
    (h : s.submittedQuestions q = true) :
    (Research.applyOp op s).submittedQuestions q = true ∧
    (Research.applyOp op s).answers q = s.answers q := by
  cases op with
  | change q2 v =>
    simp only [Research.applyOp, Research.uiAnswerChange, Research.textareaDisabled]
    by_cases hd : s.submittedQuestions q2 = true
    · simp [hd, h]
    · have hq2 : ¬(q = q2) := fun he => hd (he ▸ h)
      simp only [Bool.not_eq_true] at hd
      simp [hd, Research.handleAnswerChange, h, hq2]
  | submit q2 =>
    simp only [Research.applyOp, Research.uiSubmit]
    by_cases hd : Research.submitDisabled q2 s = true
    · simp [hd, h]
    · simp only [Bool.not_eq_true] at hd
      simp only [hd, Bool.false_eq_true, if_false]
      cases hq2 : s.answers q2 with
      | none => simp [Research.handleSubmitAnswer, hq2, h]
      | some a =>
        by_cases ht : jsTrim a = ""
        · simp [Research.handleSubmitAnswer, hq2, ht, h]
        · refine ⟨?_, ?_⟩
          · simp only [Research.handleSubmitAnswer, hq2]
            rw [if_pos ht]
            by_cases hq : q = q2 <;> simp [hq, h]
          · simp only [Research.handleSubmitAnswer, hq2]
            rw [if_pos ht]

/-- Research page: a submitted question stays submitted with an unchanged
answer under any sequence of UI operations. -/
theorem researchOps_preserve :
    ∀ (ops : List Research.Op) (s : Research.State) (q : Nat),
    s.submittedQuestions q = true →
    (Research.applyOps ops s).submittedQuestions q = true ∧
    (Research.applyOps ops s).answers q = s.answers q := by
  intro ops
  induction ops with
  | nil => intro s q h; exact ⟨h, rfl⟩
  | cons op ops ih =>
    intro s q h
    have hstep := researchStep_preserves op s q h
    have hrest := ih (Research.applyOp op s) q hstep.1
    exact ⟨hrest.1, hrest.2.trans hstep.2⟩

/-- One tech-page UI operation can neither unsubmit a submitted question nor
change its stored answer. -/
theorem techStep_preserves (op : Tech.Op) (s : Tech.State) (q : Nat)
    (h : s.submittedQuestions q = true) :
    (Tech.applyOp op s).submittedQuestions q = true ∧
    (Tech.applyOp op s).answers q = s.answers q := by
  cases op with
  | change q2 v =>
    simp only [Tech.applyOp, Tech.uiAnswerChange, Tech.textareaDisabled]
    by_cases hd : s.submittedQuestions q2 = true
    · simp [hd, h]
    · have hq2 : ¬(q = q2) := fun he => hd (he ▸ h)
      simp only [Bool.not_eq_true] at hd
      simp [hd, Tech.handleAnswerChange, h, hq2]
  | submit q2 =>
    simp only [Tech.applyOp, Tech.uiSubmit]
    by_cases hd : Tech.submitDisabled q2 s = true
    · simp [hd, h]
    · simp only [Bool.not_eq_true] at hd
      simp only [hd, Bool.false_eq_true, if_false]
      cases hq2 : s.answers q2 with
      | none => simp [Tech.handleSubmitAnswer, hq2, h]
      | some a =>
        by_cases ht : jsTrim a = ""
        · simp [Tech.handleSubmitAnswer, hq2, ht, h]
        · refine ⟨?_, ?_⟩
          · simp only [Tech.handleSubmitAnswer, hq2]
            rw [if_pos ht]
            by_cases hq : q = q2 <;> simp [hq, h]
          · simp only [Tech.handleSubmitAnswer, hq2]
            rw [if_pos ht]

/-- Tech page: a submitted question stays submitted with an unchanged answer
under any sequence of UI operations. -/
theorem techOps_preserve :
    ∀ (ops : List Tech.Op) (s : Tech.State) (q : Nat),
    s.submittedQuestions q = true →
    (Tech.applyOps ops s).submittedQuestions q = true ∧
    (Tech.applyOps ops s).answers q = s.answers q := by
  intro ops
  induction ops with
  | nil => intro s q h; exact ⟨h, rfl⟩
  | cons op ops ih =>
    intro s q h
    have hstep := techStep_preserves op s q h
    have hrest := ih (Tech.applyOp op s) q hstep.1
    exact ⟨hrest.1, hrest.2.trans hstep.2⟩

/-- C8: on the design, research and tech pages a submitted question stays
submitted under every subsequent sequence of UI operations and its stored
answer never changes, and its textarea and submit button are disabled. -/
theorem C8_submission_frozen :
    (∀ (ops : List Design.Op) (s : Design.State) (q : Nat),
        s.submittedQuestions q = true →
        (Design.applyOps ops s).submittedQuestions q = true ∧
        (Design.applyOps ops s).answers q = s.answers q) ∧
    (∀ (s : Design.State) (q : Nat), s.submittedQuestions q = true →
        Design.textareaDisabled q s = true ∧ Design.submitDisabled q s = true) ∧
    (∀ (ops : List Research.Op) (s : Research.State) (q : Nat),
        s.submittedQuestions q = true →
        (Research.applyOps ops s).submittedQuestions q = true ∧
        (Research.applyOps ops s).answers q = s.answers q) ∧
    (∀ (s : Research.State) (q : Nat), s.submittedQuestions q = true →
        Research.textareaDisabled q s = true ∧ Research.submitDisabled q s = true) ∧
    (∀ (ops : List Tech.Op) (s : Tech.State) (q : Nat),
        s.submittedQuestions q = true →
        (Tech.applyOps ops s).submittedQuestions q = true ∧
        (Tech.applyOps ops s).answers q = s.answers q) ∧
    (∀ (s : Tech.State) (q : Nat), s.submittedQuestions q = true →
        Tech.textareaDisabled q s = true ∧ Tech.submitDisabled q s = true) := by
  refine ⟨designOps_preserve, ?_, researchOps_preserve, ?_, techOps_preserve, ?_⟩
  · intro s q h
    exact ⟨h, by simp [Design.submitDisabled, h]⟩
  · intro s q h
    exact ⟨h, by simp [Research.submitDisabled, h]⟩
  · intro s q h
    exact ⟨h, by simp [Tech.submitDisabled, h]⟩

/-- A design state with question 1 submitted (answer "x"). -/
def designSub : Design.State :=
  Design.handleSubmitAnswer 1 (Design.handleAnswerChange 1 "x" Design.initState)

/-- A research state with question 1 submitted (answer "x"). -/
def researchSub : Research.State :=
  Research.handleSubmitAnswer 1 (Research.handleAnswerChange 1 "x" Research.initState)

/-- A tech state with question 1 submitted (answer "x"). -/
def techSub : Tech.State :=
  Tech.handleSubmitAnswer 1 (Tech.handleAnswerChange 1 "x" Tech.initState)

/-- C8 witness: after submitting question 1 on each page, an attempted edit
followed by a re-submit leaves it submitted with its answer intact, and both
controls are disabled. -/
theorem C8_submission_frozen_witness :
    ((Design.applyOps [.change 1 "y", .submit 1] designSub).submittedQuestions 1 = true ∧
     (Design.applyOps [.change 1 "y", .submit 1] designSub).answers 1 = designSub.answers 1) ∧
    (Design.textareaDisabled 1 designSub = true ∧ Design.submitDisabled 1 designSub = true) ∧
    ((Research.applyOps [.change 1 "y", .submit 1] researchSub).submittedQuestions 1 = true ∧
     (Research.applyOps [.change 1 "y", .submit 1] researchSub).answers 1 = researchSub.answers 1) ∧
    (Research.textareaDisabled 1 researchSub = true ∧ Research.submitDisabled 1 researchSub = true) ∧
    ((Tech.applyOps [.change 1 "y", .submit 1] techSub).submittedQuestions 1 = true ∧
     (Tech.applyOps [.change 1 "y", .submit 1] techSub).answers 1 = techSub.answers 1) ∧
    (Tech.textareaDisabled 1 techSub = true ∧ Tech.submitDisabled 1 techSub = true) := by
  refine ⟨?_, ?_, ?_, ?_, ?_, ?_⟩
  · exact C8_submission_frozen.1 [.change 1 "y", .submit 1] designSub 1 (by decide)
  · exact C8_submission_frozen.2.1 designSub 1 (by decide)
  · exact C8_submission_frozen.2.2.1 [.change 1 "y", .submit 1] researchSub 1 (by decide)
  · exact C8_submission_frozen.2.2.2.1 researchSub 1 (by decide)
  · exact C8_submission_frozen.2.2.2.2.1 [.change 1 "y", .submit 1] techSub 1 (by decide)
  · exact C8_submission_frozen.2.2.2.2.2 techSub 1 (by decide)

/-- Submitting a not-yet-submitted question preserves the competitive-coding
score invariant. -/
theorem ccSubmit_scoreInv (q : Nat) (s : CompetitiveCoding.State)
    (hinv : CompetitiveCoding.ScoreInv s) (hnot : s.submissions q = false) :
    CompetitiveCoding.ScoreInv (CompetitiveCoding.submitAnswer q s) := by
  cases ha : s.answers q with
  | none => simpa [CompetitiveCoding.submitAnswer, ha] using hinv
  | some a =>
    by_cases hc : jsTrim a.code ≠ "" ∧ jsTrim a.explanation ≠ ""
    · simp only [CompetitiveCoding.submitAnswer, ha]
      rw [if_pos hc]
      cases hfind : CompetitiveCoding.ccQuestions.find? (fun p => p.1 == q) with
      | none =>
        rw [List.find?_eq_none] at hfind
        have h1 : ¬((1 : Nat) = q) := by
          simpa using hfind (1, 100) (by simp [CompetitiveCoding.ccQuestions])
        have h2 : ¬((2 : Nat) = q) := by
          simpa using hfind (2, 200) (by simp [CompetitiveCoding.ccQuestions])
        have h3 : ¬((3 : Nat) = q) := by
          simpa using hfind (3, 300) (by simp [CompetitiveCoding.ccQuestions])
        have h4 : ¬((4 : Nat) = q) := by
          simpa using hfind (4, 250) (by simp [CompetitiveCoding.ccQuestions])
        have h5 : ¬((5 : Nat) = q) := by
          simpa using hfind (5, 350) (by simp [CompetitiveCoding.ccQuestions])
        show s.totalScore = CompetitiveCoding.earnedPoints _
        rw [hinv]
        simp [CompetitiveCoding.earnedPoints, CompetitiveCoding.ccQuestions,
          h1, h2, h3, h4, h5]
      | some qq =>
        have hq : qq.1 = q := by
          have := List.find?_some hfind
          simpa using this
        have hmem : qq ∈ CompetitiveCoding.ccQuestions :=
          List.mem_of_find?_eq_some hfind
        simp [CompetitiveCoding.ccQuestions] at hmem
        show s.totalScore + qq.2 = CompetitiveCoding.earnedPoints _
        rw [hinv]
        rcases hmem with h | h | h | h | h <;>
          (rw [h] at hq ⊢; subst hq;
           simp [CompetitiveCoding.earnedPoints, CompetitiveCoding.ccQuestions, hnot];
           omega)
    · simp only [CompetitiveCoding.submitAnswer, ha]
      rw [if_neg hc]
      exact hinv

/-- Every competitive-coding UI operation preserves the score invariant. -/
theorem ccStep_scoreInv (op : CompetitiveCoding.Op) (s : CompetitiveCoding.State)
    (hinv : CompetitiveCoding.ScoreInv s) :
    CompetitiveCoding.ScoreInv (CompetitiveCoding.applyOp op s) := by
  cases op with
  | update q f v => exact hinv
  | select q => exact hinv
  | submit q =>
    show CompetitiveCoding.ScoreInv (CompetitiveCoding.uiSubmit q s)
    by_cases hsub : s.submissions q = true
    · simpa [CompetitiveCoding.uiSubmit, CompetitiveCoding.submitDisabled, hsub]
        using hinv
    · simp only [Bool.not_eq_true] at hsub
      simp only [CompetitiveCoding.uiSubmit, CompetitiveCoding.submitDisabled,
        hsub, Bool.false_eq_true, if_false]
      exact ccSubmit_scoreInv q s hinv hsub

/-- C10: on the competitive-coding page the invariant
`totalScore = Σ points of submitted questions` holds initially and after
every UI operation; a submission is only ever recorded for a non-blank code
and explanation; the submit button is disabled exactly when the question is
already submitted; and the other operations never touch the score or the
submissions record. -/
theorem C10_cc_score_invariant :
    CompetitiveCoding.ScoreInv CompetitiveCoding.initState ∧
    (∀ (op : CompetitiveCoding.Op) (s : CompetitiveCoding.State),
        CompetitiveCoding.ScoreInv s →
        CompetitiveCoding.ScoreInv (CompetitiveCoding.applyOp op s)) ∧
    (∀ ops : List CompetitiveCoding.Op,
        CompetitiveCoding.ScoreInv
          (CompetitiveCoding.applyOps ops CompetitiveCoding.initState)) ∧
    (∀ (q : Nat) (s : CompetitiveCoding.State),
        (CompetitiveCoding.submitAnswer q s).submissions q = true →
        s.submissions q = true ∨
        ∃ a, s.answers q = some a ∧
          jsTrim a.code ≠ "" ∧ jsTrim a.explanation ≠ "") ∧
    (∀ (q : Nat) (s : CompetitiveCoding.State),
        CompetitiveCoding.submitDisabled q s = s.submissions q) ∧
    (∀ (q : Nat) (f : CompetitiveCoding.Field) (v : String)
        (s : CompetitiveCoding.State),
        (CompetitiveCoding.updateAnswer q f v s).totalScore = s.totalScore ∧
        (CompetitiveCoding.updateAnswer q f v s).submissions = s.submissions) ∧
    (∀ (q : Nat) (s : CompetitiveCoding.State),
        (CompetitiveCoding.setActiveQuestion q s).totalScore = s.totalScore ∧
        (CompetitiveCoding.setActiveQuestion q s).submissions = s.submissions) := by
  have hlist : ∀ ops : List CompetitiveCoding.Op,
      ∀ s : CompetitiveCoding.State, CompetitiveCoding.ScoreInv s →
      CompetitiveCoding.ScoreInv (CompetitiveCoding.applyOps ops s) := by
    intro ops
    induction ops with
    | nil => intro s h; exact h
    | cons op ops ih =>
      intro s h
      exact ih (CompetitiveCoding.applyOp op s) (ccStep_scoreInv op s h)
  refine ⟨rfl, ccStep_scoreInv, fun ops => hlist ops _ rfl, ?_, ?_, ?_, ?_⟩
  · intro q s h
    cases ha : s.answers q with
    | none =>
      left
      simpa [CompetitiveCoding.submitAnswer, ha] using h
    | some a =>
      by_cases hc : jsTrim a.code ≠ "" ∧ jsTrim a.explanation ≠ ""
      · exact Or.inr ⟨a, rfl, hc⟩
      · left
        rw [CompetitiveCoding.submitAnswer, ha] at h
        simp only at h
        rw [if_neg hc] at h
        exact h
  · intro q s; rfl
  · intro q f v s; exact ⟨rfl, rfl⟩
  · intro q s; exact ⟨rfl, rfl⟩

/-- A competitive-coding state with code and explanation typed for
question 1. -/
def ccFilled : CompetitiveCoding.State :=
  CompetitiveCoding.updateAnswer 1 .explanation "uses a greedy sort"
    (CompetitiveCoding.updateAnswer 1 .code "sort and take" CompetitiveCoding.initState)

/-- C10 witness: the invariant holds initially, survives a concrete submit
of question 1 (which records it and adds its 100 points), and a concrete
submitted state has a disabled button. -/
theorem C10_cc_score_invariant_witness :
    CompetitiveCoding.ScoreInv ccFilled ∧
    CompetitiveCoding.ScoreInv
      (CompetitiveCoding.applyOp (.submit 1) ccFilled) ∧
    CompetitiveCoding.ScoreInv
      (CompetitiveCoding.applyOps [.update 1 .code "sort and take",
        .update 1 .explanation "uses a greedy sort", .submit 1]
        CompetitiveCoding.initState) := by
  have h0 : CompetitiveCoding.ScoreInv ccFilled := by
    show ccFilled.totalScore = CompetitiveCoding.earnedPoints ccFilled.submissions
    decide
  refine ⟨h0, C10_cc_score_invariant.2.1 (.submit 1) ccFilled h0,
    C10_cc_score_invariant.2.2.1 _⟩

/-- A management state whose question-1 answer is the non-blank "hello". -/
def mgmtHello : Management.State :=
  Management.handleAnswerChange 1 "hello" Management.initState

/-- A management state whose question-1 answer trims to more than 10
characters. -/
def mgmtLong : Management.State :=
  Management.handleAnswerChange 1 "a very long answer" Management.initState

/-- C1 counterexample: on the management page the non-blank answer "hello"
to question 1 earns nothing (not the claimed 10 points), and with an answer
long enough to score, a second submit adds the 10 points a second time —
so neither "marks submitted exactly once" nor "non-empty answer adds the
question's points" holds there. -/
theorem C1_counterexample :
    jsTrim "hello" ≠ "" ∧
    mgmtHello.answers 1 = some "hello" ∧
    mgmtHello.totalScore = 0 ∧
    (Management.submitAnswer 1 mgmtHello).totalScore = 0 ∧
    ¬((Management.submitAnswer 1 mgmtHello).totalScore
        = mgmtHello.totalScore + 10) ∧
    (Management.submitAnswer 1 (Management.submitAnswer 1 mgmtLong)).totalScore
      = 20 := by
  decide

/-- Submitting question 1 of the management page with an answer whose
trimmed length exceeds 10 adds exactly 10 points and leaves the answers
untouched. -/
theorem mgmtSubmit1_adds (s : Management.State) (a : String)
    (ha : s.answers 1 = some a) (hlen : (jsTrim a).length > 10) :
    (Management.submitAnswer 1 s).totalScore = s.totalScore + 10 ∧
    (Management.submitAnswer 1 s).answers = s.answers := by
  have hne : a ≠ "" := by
    intro he
    subst he
    have : (jsTrim "").length = 0 := by decide
    omega
  simp only [Management.submitAnswer, ha]
  rw [if_pos ⟨hne, hlen⟩,
    show Management.managementQuestions.find? (fun q => q.1 == 1)
      = some (1, 10) by decide]
  exact ⟨rfl, rfl⟩

/-- For a listed competitive-coding question, `find?` by id returns exactly
its `(id, points)` entry. -/
theorem ccFind_of_mem (q pts : Nat)
    (hmem : (q, pts) ∈ CompetitiveCoding.ccQuestions) :
    CompetitiveCoding.ccQuestions.find? (fun p => p.1 == q) = some (q, pts) := by
  simp [CompetitiveCoding.ccQuestions, Prod.ext_iff] at hmem
  rcases hmem with ⟨h1, h2⟩ | ⟨h1, h2⟩ | ⟨h1, h2⟩ | ⟨h1, h2⟩ | ⟨h1, h2⟩ <;>
    (subst h1; subst h2; decide)

/-- C1 amended: on the design, research, tech and competitive-coding pages a
non-blank submission marks the question submitted, the UI blocks a second
submit of a submitted question, and the competitive-coding page adds the
question's fixed point value; the management page marks nothing submitted
and adds points only for trimmed answers longer than 10 characters —
question 1 then adds exactly 10 points, and a repeated submit adds 10
again. -/
theorem C1_amended_submit_semantics :
    (∀ (s : Design.State) (q : Nat) (a : String),
        s.answers q = some a → jsTrim a ≠ "" →
        (Design.handleSubmitAnswer q s).submittedQuestions q = true) ∧
    (∀ (s : Design.State) (q : Nat),
        s.submittedQuestions q = true → Design.uiSubmit q s = s) ∧
    (∀ (s : Research.State) (q : Nat) (a : String),
        s.answers q = some a → jsTrim a ≠ "" →
        (Research.handleSubmitAnswer q s).submittedQuestions q = true) ∧
    (∀ (s : Research.State) (q : Nat),
        s.submittedQuestions q = true → Research.uiSubmit q s = s) ∧
    (∀ (s : Tech.State) (q : Nat) (a : String),
        s.answers q = some a → jsTrim a ≠ "" →
        (Tech.handleSubmitAnswer q s).submittedQuestions q = true) ∧
    (∀ (s : Tech.State) (q : Nat),
        s.submittedQuestions q = true → Tech.uiSubmit q s = s) ∧
    (∀ (s : CompetitiveCoding.State) (q pts : Nat) (a : CompetitiveCoding.Answer),
        (q, pts) ∈ CompetitiveCoding.ccQuestions →
        s.answers q = some a →
        jsTrim a.code ≠ "" → jsTrim a.explanation ≠ "" →
        (CompetitiveCoding.submitAnswer q s).submissions q = true ∧
        (CompetitiveCoding.submitAnswer q s).totalScore = s.totalScore + pts) ∧
    (∀ (s : CompetitiveCoding.State) (q : Nat),
        s.submissions q = true → CompetitiveCoding.uiSubmit q s = s) ∧
    (∀ (s : Management.State) (a : String),
        s.answers 1 = some a → (jsTrim a).length > 10 →
        (Management.submitAnswer 1 s).totalScore = s.totalScore + 10 ∧
        (Management.submitAnswer 1 (Management.submitAnswer 1 s)).totalScore
          = s.totalScore + 20) := by
  refine ⟨?_, ?_, ?_, ?_, ?_, ?_, ?_, ?_, ?_⟩
  · intro s q a ha ht
    simp only [Design.handleSubmitAnswer, ha]
    rw [if_pos ht]
    simp
  · intro s q h
    simp [Design.uiSubmit, Design.submitDisabled, h]
  · intro s q a ha ht
    simp only [Research.handleSubmitAnswer, ha]
    rw [if_pos ht]
    simp
  · intro s q h
    simp [Research.uiSubmit, Research.submitDisabled, h]
  · intro s q a ha ht
    simp only [Tech.handleSubmitAnswer, ha]
    rw [if_pos ht]
    simp
  · intro s q h
    simp [Tech.uiSubmit, Tech.submitDisabled, h]
  · intro s q pts a hmem ha hc he
    simp only [CompetitiveCoding.submitAnswer, ha]
    rw [if_pos ⟨hc, he⟩, ccFind_of_mem q pts hmem]
    exact ⟨by simp, rfl⟩
  · intro s q h
    simp [CompetitiveCoding.uiSubmit, CompetitiveCoding.submitDisabled, h]
  · intro s a ha hlen
    have h1 := mgmtSubmit1_adds s a ha hlen
    have h2 := mgmtSubmit1_adds (Management.submitAnswer 1 s) a
      (by rw [h1.2, ha]) hlen
    exact ⟨h1.1, by rw [h2.1, h1.1, Nat.add_assoc]⟩

/-- C1 witness: concrete non-blank submissions — "x" on design, research
and tech marks question 1 submitted and blocks resubmits; a filled
competitive-coding question 1 earns its 100 points; the long management
answer earns 10, then 20 after a double submit. -/
theorem C1_amended_submit_semantics_witness :
    (Design.handleSubmitAnswer 1
        (Design.handleAnswerChange 1 "x" Design.initState)).submittedQuestions 1
      = true ∧
    Design.uiSubmit 1 designSub = designSub ∧
    (Research.handleSubmitAnswer 1
        (Research.handleAnswerChange 1 "x" Research.initState)).submittedQuestions 1
      = true ∧
    Research.uiSubmit 1 researchSub = researchSub ∧
    (Tech.handleSubmitAnswer 1
        (Tech.handleAnswerChange 1 "x" Tech.initState)).submittedQuestions 1
      = true ∧
    Tech.uiSubmit 1 techSub = techSub ∧
    ((CompetitiveCoding.submitAnswer 1 ccFilled).submissions 1 = true ∧
     (CompetitiveCoding.submitAnswer 1 ccFilled).totalScore
       = ccFilled.totalScore + 100) ∧
    (Management.submitAnswer 1 mgmtLong).totalScore = mgmtLong.totalScore + 10 ∧
    (Management.submitAnswer 1 (Management.submitAnswer 1 mgmtLong)).totalScore
      = mgmtLong.totalScore + 20 := by
  refine ⟨?_, ?_, ?_, ?_, ?_, ?_, ?_, ?_⟩
  · exact C1_amended_submit_semantics.1 _ 1 "x" (by decide) (by decide)
  · exact C1_amended_submit_semantics.2.1 designSub 1 (by decide)
  · exact C1_amended_submit_semantics.2.2.1 _ 1 "x" (by decide) (by decide)
  · exact C1_amended_submit_semantics.2.2.2.1 researchSub 1 (by decide)
  · exact C1_amended_submit_semantics.2.2.2.2.1 _ 1 "x" (by decide) (by decide)
  · exact C1_amended_submit_semantics.2.2.2.2.2.1 techSub 1 (by decide)
  · exact C1_amended_submit_semantics.2.2.2.2.2.2.1 ccFilled 1 100
      ⟨"sort and take", "uses a greedy sort"⟩ (by decide) (by decide)
      (by decide) (by decide)
  · exact C1_amended_submit_semantics.2.2.2.2.2.2.2.2 mgmtLong
      "a very long answer" (by decide) (by decide)

/-- One component of the no-drag frame recurrence: `(rotation, target)`
evolves by `rotation += (target - rotation) * springStrength`,
`target *= damping`. -/
def rotIter (r0 t0 : ℚ) : Nat → ℚ × ℚ
  | 0 => (r0, t0)
  | n + 1 =>
    ((rotIter r0 t0 n).1
        + ((rotIter r0 t0 n).2 - (rotIter r0 t0 n).1) * Motherboard.springStrength,
     (rotIter r0 t0 n).2 * Motherboard.damping)

/-- Frames never start a drag. -/
theorem framesFrom_isDragging (s : Motherboard.RotState)
    (h : s.isDragging = false) :
    ∀ n, (Motherboard.framesFrom s n).isDragging = false := by
  intro n
  induction n with
  | zero => exact h
  | succ n ih =>
    show (Motherboard.frameStep (Motherboard.framesFrom s n)).isDragging = false
    rw [Motherboard.frameStep, ih]
    simp

/-- With no drag in progress, each axis of the frame iteration follows the
scalar recurrence `rotIter`. -/
theorem framesFrom_eq_rotIter (s : Motherboard.RotState)
    (h : s.isDragging = false) :
    ∀ n,
    (Motherboard.framesFrom s n).rotation.1
        = (rotIter s.rotation.1 s.targetRotation.1 n).1 ∧
    (Motherboard.framesFrom s n).targetRotation.1
        = (rotIter s.rotation.1 s.targetRotation.1 n).2 ∧
    (Motherboard.framesFrom s n).rotation.2
        = (rotIter s.rotation.2 s.targetRotation.2 n).1 ∧
    (Motherboard.framesFrom s n).targetRotation.2
        = (rotIter s.rotation.2 s.targetRotation.2 n).2 := by
  intro n
  induction n with
  | zero => exact ⟨rfl, rfl, rfl, rfl⟩
  | succ n ih =>
    have hd := framesFrom_isDragging s h n
    have hstep : Motherboard.framesFrom s (n + 1)
        = Motherboard.frameStep (Motherboard.framesFrom s n) := rfl
    rw [hstep, Motherboard.frameStep, hd]
    simp only [Bool.false_eq_true, if_false]
    refine ⟨?_, ?_, ?_, ?_⟩
    · rw [rotIter]; simp [ih.1, ih.2.1]
    · rw [rotIter]; simp [ih.1, ih.2.1]
    · rw [rotIter]; simp [ih.2.2.1, ih.2.2.2]
    · rw [rotIter]; simp [ih.2.2.1, ih.2.2.2]

/-- Closed form of the target component: pure geometric decay. -/
theorem rotIter_snd (r0 t0 : ℚ) :
    ∀ n, (rotIter r0 t0 n).2 = t0 * Motherboard.damping ^ n := by
  intro n
  induction n with
  | zero => simp [rotIter]
  | succ n ih =>
    rw [rotIter, ih, pow_succ, mul_assoc]

/-- Closed form of the displayed-rotation component. -/
theorem rotIter_fst (r0 t0 : ℚ) :
    ∀ n, (rotIter r0 t0 n).1
      = Motherboard.damping ^ n * r0
        + (n : ℚ) / 9 * Motherboard.damping ^ n * t0 := by
  intro n
  induction n with
  | zero => simp [rotIter]
  | succ n ih =>
    rw [rotIter, ih, rotIter_snd]
    simp only [Motherboard.damping, Motherboard.springStrength]
    push_cast
    ring

/-- The geometric factor 9/10 tends to zero. -/
theorem tendsto_damping_pow :
    Filter.Tendsto (fun n : ℕ => ((9 : ℝ) / 10) ^ n) Filter.atTop (nhds 0) :=
  tendsto_pow_atTop_nhds_zero_of_lt_one (by norm_num) (by norm_num)

/-- The sequence `n · (9/10)ⁿ` tends to zero. -/
theorem tendsto_mul_damping_pow :
    Filter.Tendsto (fun n : ℕ => (n : ℝ) * ((9 : ℝ) / 10) ^ n)
      Filter.atTop (nhds 0) := by
  have hs : Summable (fun n : ℕ => (n : ℝ) ^ 1 * ((9 : ℝ) / 10) ^ n) :=
    summable_pow_mul_geometric_of_norm_lt_one 1
      (by rw [Real.norm_eq_abs, abs_of_nonneg] <;> norm_num)
  simpa using hs.tendsto_atTop_zero

/-- The real-valued closed form `dⁿ·r + (n/9)·dⁿ·t` tends to zero. -/
theorem tendsto_closed_form (r t : ℝ) :
    Filter.Tendsto
      (fun n : ℕ => ((9 : ℝ) / 10) ^ n * r + (n : ℝ) / 9 * ((9 : ℝ) / 10) ^ n * t)
      Filter.atTop (nhds 0) := by
  have h1 : Filter.Tendsto (fun n : ℕ => ((9 : ℝ) / 10) ^ n * r)
      Filter.atTop (nhds 0) := by
    simpa using tendsto_damping_pow.mul_const r
  have h2 : Filter.Tendsto
      (fun n : ℕ => (n : ℝ) / 9 * ((9 : ℝ) / 10) ^ n * t)
      Filter.atTop (nhds 0) := by
    have := tendsto_mul_damping_pow.mul_const (t / 9)
    rw [zero_mul] at this
    refine this.congr ?_
    intro n
    ring
  simpa using h1.add h2

/-- Each axis of the scalar recurrence tends to zero, displayed rotation and
target alike. -/
theorem rotIter_tendsto_zero (r0 t0 : ℚ) :
    Filter.Tendsto (fun n => ((rotIter r0 t0 n).1 : ℝ)) Filter.atTop (nhds 0) ∧
    Filter.Tendsto (fun n => ((rotIter r0 t0 n).2 : ℝ)) Filter.atTop (nhds 0) := by
  constructor
  · refine (tendsto_closed_form (r0 : ℝ) (t0 : ℝ)).congr ?_
    intro n
    rw [rotIter_fst]
    push_cast [Motherboard.damping]
    ring
  · have := tendsto_damping_pow.mul_const (t0 : ℝ)
    rw [zero_mul] at this
    refine this.congr ?_
    intro n
    rw [rotIter_snd]
    push_cast [Motherboard.damping]
    ring

/-- C4: with no drag in progress, each frame multiplies both target-rotation
components by the damping factor 0.9 < 1 (so their magnitudes never
increase) and moves the displayed rotation a fixed fraction (0.1) of the way
toward the target, and over successive frames every component of the offset
converges to zero. -/
theorem C4_rotation_decays_to_zero :
    Motherboard.damping < 1 ∧ 0 < Motherboard.damping ∧
    (∀ s : Motherboard.RotState, s.isDragging = false →
        (Motherboard.frameStep s).targetRotation
          = (s.targetRotation.1 * Motherboard.damping,
             s.targetRotation.2 * Motherboard.damping) ∧
        |(Motherboard.frameStep s).targetRotation.1| ≤ |s.targetRotation.1| ∧
        |(Motherboard.frameStep s).targetRotation.2| ≤ |s.targetRotation.2| ∧
        (Motherboard.frameStep s).rotation
          = (s.rotation.1
               + (s.targetRotation.1 - s.rotation.1) * Motherboard.springStrength,
             s.rotation.2
               + (s.targetRotation.2 - s.rotation.2) * Motherboard.springStrength)) ∧
    (∀ s : Motherboard.RotState, s.isDragging = false →
        Filter.Tendsto (fun n => ((Motherboard.framesFrom s n).rotation.1 : ℝ))
          Filter.atTop (nhds 0) ∧
        Filter.Tendsto (fun n => ((Motherboard.framesFrom s n).rotation.2 : ℝ))
          Filter.atTop (nhds 0) ∧
        Filter.Tendsto (fun n => ((Motherboard.framesFrom s n).targetRotation.1 : ℝ))
          Filter.atTop (nhds 0) ∧
        Filter.Tendsto (fun n => ((Motherboard.framesFrom s n).targetRotation.2 : ℝ))
          Filter.atTop (nhds 0)) := by
  have habs : ∀ t : ℚ, |t * Motherboard.damping| ≤ |t| := by
    intro t
    rw [abs_mul]
    have hd : |Motherboard.damping| ≤ 1 := by
      rw [show Motherboard.damping = 9/10 from rfl, abs_of_nonneg] <;> norm_num
    exact mul_le_of_le_one_right (abs_nonneg t) hd
  refine ⟨by norm_num [Motherboard.damping], by norm_num [Motherboard.damping],
    ?_, ?_⟩
  · intro s h
    rw [Motherboard.frameStep, h]
    simp only [Bool.false_eq_true, if_false]
    exact ⟨by trivial, habs _, habs _, by trivial⟩
  · intro s h
    have he := framesFrom_eq_rotIter s h
    refine ⟨?_, ?_, ?_, ?_⟩
    · exact ((rotIter_tendsto_zero s.rotation.1 s.targetRotation.1).1).congr
        (fun n => by rw [(he n).1])
    · exact ((rotIter_tendsto_zero s.rotation.2 s.targetRotation.2).1).congr
        (fun n => by rw [(he n).2.2.1])
    · exact ((rotIter_tendsto_zero s.rotation.1 s.targetRotation.1).2).congr
        (fun n => by rw [(he n).2.1])
    · exact ((rotIter_tendsto_zero s.rotation.2 s.targetRotation.2).2).congr
        (fun n => by rw [(he n).2.2.2])

/-- A resting (not dragged) rotation state with a nonzero offset. -/
def tiltedState : Motherboard.RotState :=
  { isDragging := false, dragStart := (0, 0), rotation := (1, 2),
    targetRotation := (3, 4) }

/-- C4 witness: from a concrete tilted state, one frame damps the target and
nudges the rotation, and the iterated offsets converge to zero. -/
theorem C4_rotation_decays_to_zero_witness :
    tiltedState.isDragging = false ∧
    ((Motherboard.frameStep tiltedState).targetRotation
        = (tiltedState.targetRotation.1 * Motherboard.damping,
           tiltedState.targetRotation.2 * Motherboard.damping) ∧
     |(Motherboard.frameStep tiltedState).targetRotation.1|
        ≤ |tiltedState.targetRotation.1| ∧
     |(Motherboard.frameStep tiltedState).targetRotation.2|
        ≤ |tiltedState.targetRotation.2| ∧
     (Motherboard.frameStep tiltedState).rotation
        = (tiltedState.rotation.1
             + (tiltedState.targetRotation.1 - tiltedState.rotation.1)
                 * Motherboard.springStrength,
           tiltedState.rotation.2
             + (tiltedState.targetRotation.2 - tiltedState.rotation.2)
                 * Motherboard.springStrength)) ∧
    Filter.Tendsto (fun n => ((Motherboard.framesFrom tiltedState n).rotation.1 : ℝ))
      Filter.atTop (nhds 0) := by
  refine ⟨rfl, ?_, ?_⟩
  · exact (C4_rotation_decays_to_zero.2.2.1 tiltedState rfl)
  · exact (C4_rotation_decays_to_zero.2.2.2 tiltedState rfl).1
